import Mathlib

/-!
Shallow embedding of the AppBazaar auction and payment lifecycles.

Sources:
* `src/unnamed/part_001` — the Auction mongoose schema: `isExpired`/`isOpen`,
  `addBid`, `acceptBid`, the `pre('save')` hook defaulting `expiresAt`.
* `src/unnamed/part_000` — the auction routes: `POST /:id/bid` and
  `PUT /:id/bid/:bidId/accept`.
* `src/unnamed/part_002` — the Payment mongoose schema: `markCompleted`,
  `processRefund`, `findByOrderId`, `createPayment`.
* `src/backend/routes/payments.js` — `create-order`, `verify`, `refund`.

ObjectIds are modelled as `Nat`, timestamps as `Nat` (milliseconds since the
epoch, compared the way JS compares `Date` values, i.e. numerically).  A route
handler that replies with an error performs no database write, so handlers are
modelled as functions returning `Except err newState`: an `.error` result means
the stored state is unchanged.
-/

namespace AppBazaar

/-- Bid sub-document status enum (`auctionSchema.bids.status`). -/
inductive BidStatus
  | pending
  | accepted
  | rejected
deriving DecidableEq, Repr

/-- Auction status enum (`auctionSchema.status`): `'open'`, `'in-progress'`,
`'completed'`, `'cancelled'`.  (`open` is a Lean keyword, hence `open_`.) -/
inductive AuctionStatus
  | open_
  | inProgress
  | completed
  | cancelled
deriving DecidableEq, Repr

/-- A bid sub-document embedded in an auction (`auctionSchema.bids`).
`id` models the mongoose `_id` of the sub-document. -/
structure Bid where
  id : Nat
  developer : Nat
  amount : Nat
  proposal : String
  timeline : Nat
  status : BidStatus
  submittedAt : Nat
deriving DecidableEq, Repr

/-- The auction document, restricted to the fields the lifecycle methods
read or write (`buyer`, `status`, `bids`, `acceptedBid`, `expiresAt`,
`isActive`). -/
structure Auction where
  buyer : Nat
  status : AuctionStatus
  bids : List Bid
  acceptedBid : Option Nat
  expiresAt : Nat
  isActive : Bool
deriving DecidableEq, Repr

/-- Payload of a bid submission: the route builds
`{ developer: req.user.id, amount, proposal, timeline }`. -/
structure BidData where
  developer : Nat
  amount : Nat
  proposal : String
  timeline : Nat
deriving DecidableEq, Repr

/-- Error taxonomy of the auction routes, following §7 of the spec.
`invalidState` covers the messages `'Auction is not active'`,
`'Auction is not open for bidding'` and
`'Cannot accept bids on auction that is not open'`. -/
inductive AuctionError
  | notFound
  | invalidState
  | selfBidForbidden
  | notOwner
  | bidNotFound
  | bidNotPending
  | validationFailed
deriving DecidableEq, Repr

/-- `auctionSchema.virtual('isExpired')`: `this.expiresAt < new Date()`. -/
def Auction.isExpired (a : Auction) (now : Nat) : Bool :=
  a.expiresAt < now

/-- `auctionSchema.methods.isOpen`:
`this.status === 'open' && !this.isExpired`. -/
def Auction.isOpen (a : Auction) (now : Nat) : Bool :=
  a.status == .open_ && !(a.isExpired now)

/-- The in-place rewrite `this.bids[existingBidIndex] = {...existing,
...bidData, submittedAt: new Date()}` at the first index whose developer
matches (`findIndex`): the spread keeps the existing `_id` and `status` and
overwrites `developer`/`amount`/`proposal`/`timeline`/`submittedAt`. -/
def replaceBidOf (bd : BidData) (now : Nat) : List Bid → List Bid
  | [] => []
  | b :: bs =>
      if b.developer == bd.developer then
        { b with developer := bd.developer, amount := bd.amount,
                 proposal := bd.proposal, timeline := bd.timeline,
                 submittedAt := now } :: bs
      else b :: replaceBidOf bd now bs

/-- `auctionSchema.methods.addBid`.  Throws (here: `.error .invalidState`)
when `!this.isOpen()`.  `findIndex` over the bids decides the branch:
`!== -1` means the first matching sub-record is rewritten in place
(`replaceBidOf`), otherwise a new pending bid is pushed; `freshId` models
the `_id` mongoose mints for the pushed sub-document. -/
def Auction.addBid (a : Auction) (bd : BidData) (now freshId : Nat) :
    Except AuctionError Auction :=
  if !(a.isOpen now) then .error .invalidState
  else if a.bids.any (fun b => b.developer == bd.developer) then
    .ok { a with bids := replaceBidOf bd now a.bids }
  else
    .ok { a with bids := a.bids ++
      [{ id := freshId, developer := bd.developer, amount := bd.amount,
         proposal := bd.proposal, timeline := bd.timeline,
         status := .pending, submittedAt := now }] }

/-- First pass of `acceptBid`: `this.bids.forEach(b => { if (b._id !== bidId)
b.status = 'rejected' })`. -/
def rejectOthers (bidId : Nat) (bids : List Bid) : List Bid :=
  bids.map (fun b => if b.id = bidId then b else { b with status := .rejected })

/-- Second step of `acceptBid`: `bid.status = 'accepted'` where
`bid = this.bids.id(bidId)`, i.e. the first sub-document whose `_id`
matches. -/
def acceptFirst (bidId : Nat) : List Bid → List Bid
  | [] => []
  | b :: bs =>
      if b.id = bidId then { b with status := .accepted } :: bs
      else b :: acceptFirst bidId bs

/-- `auctionSchema.methods.acceptBid`. -/
def Auction.acceptBid (a : Auction) (bidId : Nat) :
    Except AuctionError Auction :=
  match a.bids.find? (fun b => b.id == bidId) with
  | none => .error .bidNotFound
  | some bid =>
      if bid.status ≠ .pending then .error .bidNotPending
      else .ok { a with
        bids := acceptFirst bidId (rejectOthers bidId a.bids),
        acceptedBid := some bid.developer,
        status := .inProgress }

/-- `POST /api/auctions/:id/bid` (src/unnamed/part_000, lines 237-285):
404 when the auction is missing, 400 `'Auction is not active'`,
400 `'Auction is not open for bidding'` when `status !== 'open'`,
400 `'Cannot bid on your own auction'`, then `auction.addBid(bidData)`. -/
def submitBidRoute (auction : Option Auction) (requesterId : Nat)
    (bd : BidData) (now freshId : Nat) : Except AuctionError Auction :=
  match auction with
  | none => .error .notFound
  | some a =>
      if !a.isActive then .error .invalidState
      else if a.status ≠ .open_ then .error .invalidState
      else if a.buyer = requesterId then .error .selfBidForbidden
      else a.addBid bd now freshId

/-- `PUT /api/auctions/:id/bid/:bidId/accept` (src/unnamed/part_000,
lines 290-323): 404 when missing, 403 unless the requester is the buyer,
400 `'Cannot accept bids on auction that is not open'` unless
`status === 'open'`, then `auction.acceptBid(bidId)`. -/
def acceptBidRoute (auction : Option Auction) (requesterId bidId : Nat) :
    Except AuctionError Auction :=
  match auction with
  | none => .error .notFound
  | some a =>
      if a.buyer ≠ requesterId then .error .notOwner
      else if a.status ≠ .open_ then .error .invalidState
      else a.acceptBid bidId

/-- A finite sequence of `submitBid` calls against one auction document:
each entry carries the bid payload, the wall-clock time of the call and the
`_id` mongoose would mint for a pushed sub-document.  A call the route
rejects writes nothing, so the auction is carried over unchanged. -/
def runBids : Auction → List (BidData × Nat × Nat) → Auction
  | a, [] => a
  | a, c :: cs =>
      match a.addBid c.1 c.2.1 c.2.2 with
      | .ok a' => runBids a' cs
      | .error _ => runBids a cs

/-- An auction document before persistence: `expiresAt` may still be
absent (the schema marks it `required: true`). -/
structure AuctionDoc where
  buyer : Nat
  status : AuctionStatus
  bids : List Bid
  acceptedBid : Option Nat
  expiresAt : Option Nat
  isActive : Bool
deriving DecidableEq, Repr

/-- Mongoose built-in validation of the schema's `required` paths: for the
fields modelled here, only `expiresAt: { required: true }` can fail. -/
def validateAuctionDoc (d : AuctionDoc) : Bool :=
  d.expiresAt.isSome

/-- The user `pre('save')` hook (src/unnamed/part_001, lines 197-202):
`if (!this.expiresAt) this.expiresAt = new Date(Date.now() + 30*24*60*60*1000)`. -/
def preSaveHook (d : AuctionDoc) (now : Nat) : AuctionDoc :=
  match d.expiresAt with
  | none => { d with expiresAt := some (now + 30 * 24 * 60 * 60 * 1000) }
  | some _ => d

/-- `Document.save()` as mongoose runs it: the built-in `pre('save')` hook
calls `validate()` first, so schema validation (including `required` checks)
completes before any user `pre('save')` hook runs; only then does the user
hook fire and the document persist. -/
def auctionSave (d : AuctionDoc) (now : Nat) :
    Except AuctionError AuctionDoc :=
  if !validateAuctionDoc d then .error .validationFailed
  else .ok (preSaveHook d now)

/-! ## Payment data model (src/unnamed/part_002) and payment routes
(src/backend/routes/payments.js) -/

/-- Payment status enum (`paymentSchema.status`). -/
inductive PayStatus
  | pending
  | completed
  | failed
  | refunded
deriving DecidableEq, Repr

/-- The payment document, restricted to the fields the routes and schema
methods read or write. -/
structure Payment where
  id : Nat
  user : Nat
  app : Nat
  amount : Nat
  razorpayOrderId : String
  razorpayPaymentId : Option String
  razorpaySignature : Option String
  status : PayStatus
  refundAmount : Nat
  refundReason : Option String
  refundedAt : Option Nat
  completedAt : Option Nat
deriving DecidableEq, Repr

/-- A user record, restricted to the `purchases` array the verify route
pushes into. -/
structure UserRec where
  id : Nat
  purchases : List Nat
deriving DecidableEq, Repr

/-- An app record, restricted to the `downloads` counter the verify route
increments. -/
structure AppRec where
  id : Nat
  downloads : Nat
deriving DecidableEq, Repr

/-- The document-store state the payment routes read and write. -/
structure Store where
  payments : List Payment
  users : List UserRec
  apps : List AppRec
deriving DecidableEq, Repr

/-- Error taxonomy of the payment routes, following §7 of the spec. -/
inductive PaymentError
  | missingData
  | signatureInvalid
  | notFound
  | notOwner
  | alreadyProcessed
  | alreadyPurchased
  | invalidState
  | forbidden
  | gatewayFailure
  | validationFailed
deriving DecidableEq, Repr

/-- `paymentSchema.statics.findByOrderId`:
`this.findOne({ razorpayOrderId: orderId })`. -/
def findByOrderId (ps : List Payment) (orderId : String) : Option Payment :=
  ps.find? (fun p => p.razorpayOrderId == orderId)

/-- `paymentSchema.methods.markCompleted`. -/
def Payment.markCompleted (p : Payment) (paymentId signature : String)
    (now : Nat) : Payment :=
  { p with razorpayPaymentId := some paymentId,
           razorpaySignature := some signature,
           status := .completed,
           completedAt := some now }

/-- `paymentSchema.methods.processRefund`. -/
def Payment.processRefund (p : Payment) (amount : Nat) (reason : String)
    (now : Nat) : Payment :=
  { p with status := .refunded,
           refundAmount := amount,
           refundReason := some reason,
           refundedAt := some now }

/-- `POST /api/payments/create-order` (payments.js, lines 27-95).  The
remote gateway order creation is opaque; `orderId` stands for the id the
gateway mints and `newPaymentId` for the `_id` of the new local record.
After the app lookup, the route refuses with `'You have already purchased
this app'` when a completed payment exists for (user, app); otherwise it
creates a pending payment referencing the remote order id. -/
def createOrder (st : Store) (userId appId amount : Nat) (orderId : String)
    (newPaymentId : Nat) : Except PaymentError Store :=
  match st.apps.find? (fun a => a.id == appId) with
  | none => .error .notFound
  | some _ =>
      if (st.payments.find? (fun p =>
            p.user == userId && p.app == appId &&
            p.status == PayStatus.completed)).isSome then
        .error .alreadyPurchased
      else
        .ok { st with payments := st.payments ++
          [{ id := newPaymentId, user := userId, app := appId,
             amount := amount, razorpayOrderId := orderId,
             razorpayPaymentId := none, razorpaySignature := none,
             status := .pending, refundAmount := 0, refundReason := none,
             refundedAt := none, completedAt := none }] }

/-- `POST /api/payments/verify` (payments.js, lines 100-163).  `hmac`
models `crypto.createHmac('sha256', RAZORPAY_KEY_SECRET).update(body)
.digest('hex')` applied to `razorpayOrderId + '|' + razorpayPaymentId`;
the secret is baked into the function.  A JS-falsy (absent or empty)
request field is modelled as the empty string.  The `protect` middleware
guarantees the caller's user record exists, so the user/app follow-up
writes are the usual map-updates keyed by id. -/
def verify (hmac : String → String) (st : Store) (callerId : Nat)
    (orderId paymentId signature : String) (now : Nat) :
    Except PaymentError Store :=
  if orderId.isEmpty || paymentId.isEmpty || signature.isEmpty then
    .error .missingData
  else
    let body := orderId ++ "|" ++ paymentId
    let expectedSignature := hmac body
    if expectedSignature ≠ signature then .error .signatureInvalid
    else
      match findByOrderId st.payments orderId with
      | none => .error .notFound
      | some p =>
          if p.user ≠ callerId then .error .notOwner
          else if p.status ≠ .pending then .error .alreadyProcessed
          else
            let p' := p.markCompleted paymentId signature now
            .ok { st with
              payments := st.payments.map
                (fun q => if q.id = p.id then p' else q),
              users := st.users.map (fun u =>
                if u.id = callerId then
                  (if p.app ∈ u.purchases then u
                   else { u with purchases := u.purchases ++ [p.app] })
                else u),
              apps := st.apps.map (fun ap =>
                if ap.id = p.app then { ap with downloads := ap.downloads + 1 }
                else ap) }

/-- `POST /api/payments/refund` (payments.js, lines 225-271).  Admin only;
`!amount` (JS falsy, i.e. 0) and `!reason` (empty) trip the required-field
check; only a `completed` payment may be refunded; `remoteOk` models the
outcome of `razorpay.payments.refund` — when it throws, the route replies
500 and never touches the local record; on success the local record is
updated via `payment.processRefund(amount, reason)`. -/
def refund (st : Store) (isAdmin : Bool) (paymentId amount : Nat)
    (reason : String) (remoteOk : Bool) (now : Nat) :
    Except PaymentError Store :=
  if !isAdmin then .error .forbidden
  else if amount == 0 || reason.isEmpty then .error .missingData
  else
    match st.payments.find? (fun p => p.id == paymentId) with
    | none => .error .notFound
    | some p =>
        if p.status ≠ .completed then .error .invalidState
        else if !remoteOk then .error .gatewayFailure
        else
          let updated := st.payments.map (fun q =>
            if q.id = p.id then p.processRefund amount reason now else q)
          .ok { st with payments := updated }

/-! ## Helper lemmas about the auction operations -/

/-- In a bid list with pairwise-distinct `_id`s, `find?` by the id of a
member returns exactly that member. -/
theorem find_bid_by_id {l : List Bid} {b : Bid} {bidId : Nat}
    (hmem : b ∈ l) (hid : b.id = bidId) (hnd : (l.map Bid.id).Nodup) :
    l.find? (fun c => c.id == bidId) = some b := by
  induction l with
  | nil => cases hmem
  | cons c cs ih =>
      rw [List.map_cons, List.nodup_cons] at hnd
      rcases List.mem_cons.mp hmem with rfl | hbs
      · exact List.find?_cons_of_pos _ (by simp [hid])
      · have hcid : ¬(c.id = bidId) := by
          intro hc
          exact hnd.1 (hc ▸ hid ▸ List.mem_map_of_mem Bid.id hbs)
        rw [List.find?_cons_of_neg _ (by simp [hcid])]
        exact ih hbs hnd.2

/-- When no bid in the list carries the target id, the rejection pass
rejects everything, which agrees with the accept-or-reject map. -/
theorem rejectOthers_of_not_mem {bidId : Nat} {l : List Bid}
    (h : ∀ c ∈ l, c.id ≠ bidId) :
    rejectOthers bidId l =
      l.map (fun c =>
        if c.id = bidId then { c with status := BidStatus.accepted }
        else { c with status := BidStatus.rejected }) := by
  unfold rejectOthers
  exact List.map_congr_left (fun c hc => by simp [h c hc])

/-- On a bid list with pairwise-distinct `_id`s, the two passes of
`acceptBid` amount to: the bid with the target id becomes `accepted`,
every other bid becomes `rejected`. -/
theorem accept_reject_eq {bidId : Nat} :
    ∀ l : List Bid, (l.map Bid.id).Nodup →
    acceptFirst bidId (rejectOthers bidId l) =
      l.map (fun c =>
        if c.id = bidId then { c with status := BidStatus.accepted }
        else { c with status := BidStatus.rejected }) := by
  intro l
  induction l with
  | nil => intro _; rfl
  | cons c cs ih =>
      intro hnd
      rw [List.map_cons, List.nodup_cons] at hnd
      by_cases hc : c.id = bidId
      · have htail : ∀ d ∈ cs, d.id ≠ bidId := by
          intro d hd hdid
          exact hnd.1 (by rw [hc, ← hdid]; exact List.mem_map_of_mem Bid.id hd)
        simp only [rejectOthers, List.map_cons, if_pos hc, acceptFirst]
        exact congrArg _
          (List.map_congr_left (fun d hd => by simp [htail d hd]))
      · simp only [rejectOthers, List.map_cons, if_neg hc, acceptFirst]
        exact congrArg _ (ih hnd.2)

/-- C1: for every open auction containing a pending bid (in a bid list with
pairwise-distinct `_id`s, as mongoose mints them), a successful `acceptBid`
on that bid leaves exactly one bid with status `accepted` — the target bid —
every other bid with status `rejected`, `acceptedBid` equal to the target
bid's developer, and `status = 'in-progress'`. -/
theorem acceptBid_exactly_one_accepted
    (a : Auction) (b : Bid) (bidId : Nat)
    (_hopen : a.status = .open_)
    (hmem : b ∈ a.bids) (hid : b.id = bidId) (hpend : b.status = .pending)
    (hnd : (a.bids.map Bid.id).Nodup) :
    ∃ a', a.acceptBid bidId = .ok a' ∧
      a'.bids.countP (fun c => c.status == BidStatus.accepted) = 1 ∧
      (∀ c ∈ a'.bids, c.id ≠ bidId → c.status = .rejected) ∧
      (∀ c ∈ a'.bids, c.id = bidId → c.status = .accepted) ∧
      a'.acceptedBid = some b.developer ∧
      a'.status = .inProgress := by
  have hfind := find_bid_by_id hmem hid hnd
  have hrun : a.acceptBid bidId = .ok { a with
      bids := acceptFirst bidId (rejectOthers bidId a.bids),
      acceptedBid := some b.developer,
      status := .inProgress } := by
    unfold Auction.acceptBid
    rw [hfind]
    simp [hpend]
  refine ⟨_, hrun, ?_, ?_, ?_, rfl, rfl⟩
  · rw [accept_reject_eq a.bids hnd, List.countP_map]
    have h1 : a.bids.countP ((fun c => c.status == BidStatus.accepted) ∘
        (fun c =>
          if c.id = bidId then { c with status := BidStatus.accepted }
          else { c with status := BidStatus.rejected })) =
        a.bids.countP (fun c => c.id == bidId) :=
      List.countP_congr (fun c _ => by
        by_cases h : c.id = bidId
        · simp only [Function.comp_apply, if_pos h, h]
          simp
        · simp only [Function.comp_apply, if_neg h]
          simp [h])
    rw [h1]
    have h2 : a.bids.countP (fun c => c.id == bidId) =
        (a.bids.map Bid.id).count bidId := by
      rw [List.count_eq_countP, List.countP_map]
      exact List.countP_congr (fun c _ => by simp)
    rw [h2]
    exact List.count_eq_one_of_mem hnd (hid ▸ List.mem_map_of_mem Bid.id hmem)
  · intro c hc hne
    rw [accept_reject_eq a.bids hnd] at hc
    obtain ⟨d, _, rfl⟩ := List.mem_map.mp hc
    by_cases hd : d.id = bidId
    · rw [if_pos hd] at hne
      exact absurd hd hne
    · rw [if_neg hd]
  · intro c hc hce
    rw [accept_reject_eq a.bids hnd] at hc
    obtain ⟨d, _, rfl⟩ := List.mem_map.mp hc
    by_cases hd : d.id = bidId
    · rw [if_pos hd]
    · rw [if_neg hd] at hce
      exact absurd hce hd

/-- Rewriting an existing bid in place never changes the developer column:
the first matching sub-record keeps its developer (the payload's developer
equals it), every other sub-record is untouched. -/
theorem replaceBidOf_map_developer (bd : BidData) (now : Nat) :
    ∀ l : List Bid,
      (replaceBidOf bd now l).map Bid.developer = l.map Bid.developer := by
  intro l
  induction l with
  | nil => rfl
  | cons b bs ih =>
      by_cases h : b.developer == bd.developer
      · have hdev : b.developer = bd.developer := by simpa using h
        simp [replaceBidOf, h, hdev]
      · simp [replaceBidOf, h, ih]

/-- When some bid's developer matches the payload, `replaceBidOf` is the
in-place update of the first matching index: the sub-record there keeps its
`_id` and `status` and takes the payload's amount, proposal, timeline and
the call time as `submittedAt`. -/
theorem replaceBidOf_eq_set (bd : BidData) (now : Nat) :
    ∀ l : List Bid, l.any (fun b => b.developer == bd.developer) = true →
    ∃ i b, l[i]? = some b ∧ b.developer = bd.developer ∧
      replaceBidOf bd now l = l.set i
        { b with developer := bd.developer, amount := bd.amount,
                 proposal := bd.proposal, timeline := bd.timeline,
                 submittedAt := now } := by
  intro l
  induction l with
  | nil => intro h; cases h
  | cons c cs ih =>
      intro h
      by_cases hc : c.developer == bd.developer
      · exact ⟨0, c, by simp, by simpa using hc, by simp [replaceBidOf, hc]⟩
      · have htail : cs.any (fun b => b.developer == bd.developer) = true := by
          simpa [List.any_cons, hc] using h
        obtain ⟨i, b, hget, hdev, heq⟩ := ih htail
        exact ⟨i + 1, b, by simpa using hget, hdev,
          by simp [replaceBidOf, hc, heq]⟩

/-- A successful `addBid` preserves distinctness of the developers of the
auction's bids. -/
theorem addBid_nodup_developers {a : Auction} {bd : BidData}
    {now fid : Nat} {a' : Auction}
    (h : a.addBid bd now fid = .ok a')
    (hnd : (a.bids.map Bid.developer).Nodup) :
    (a'.bids.map Bid.developer).Nodup := by
  unfold Auction.addBid at h
  split at h
  · cases h
  · split at h
    · cases h
      rw [replaceBidOf_map_developer]
      exact hnd
    · cases h
      rename_i hopen hany
      rw [List.map_append, List.map_cons, List.map_nil]
      rw [List.nodup_append]
      refine ⟨hnd, List.nodup_singleton _, ?_⟩
      intro x hx hx1
      rw [List.mem_singleton] at hx1
      subst hx1
      obtain ⟨b, hb, hbdev⟩ := List.mem_map.mp hx
      exact hany (List.any_eq_true.mpr ⟨b, hb, by simp [hbdev]⟩)

/-- Any finite sequence of `submitBid` calls preserves distinctness of the
developers of the auction's bids (rejected calls write nothing). -/
theorem runBids_nodup_developers :
    ∀ (calls : List (BidData × Nat × Nat)) (a : Auction),
      (a.bids.map Bid.developer).Nodup →
      ((runBids a calls).bids.map Bid.developer).Nodup := by
  intro calls
  induction calls with
  | nil => intro a h; exact h
  | cons c cs ih =>
      intro a h
      unfold runBids
      cases heq : a.addBid c.1 c.2.1 c.2.2 with
      | ok a' => exact ih a' (addBid_nodup_developers heq h)
      | error _ => exact ih a h

/-- C2: each developer appears at most once among an auction's bids, for any
finite sequence of `submitBid` calls (auctions are created with no bids, so
the developer column starts duplicate-free); a successful `addBid` from a
developer who already has a bid rewrites that sub-record's
amount/proposal/timeline/submittedAt in place, keeping the list length,
while a new developer appends exactly one pending bid. -/
theorem addBid_developer_unique :
    (∀ (a : Auction) (calls : List (BidData × Nat × Nat)),
        (a.bids.map Bid.developer).Nodup →
        ((runBids a calls).bids.map Bid.developer).Nodup)
    ∧ (∀ (a : Auction) (bd : BidData) (now fid : Nat) (a' : Auction),
        a.addBid bd now fid = .ok a' →
        (bd.developer ∈ a.bids.map Bid.developer →
          a'.bids.length = a.bids.length ∧
          ∃ i b, a.bids[i]? = some b ∧ b.developer = bd.developer ∧
            a'.bids = a.bids.set i
              { b with developer := bd.developer, amount := bd.amount,
                       proposal := bd.proposal, timeline := bd.timeline,
                       submittedAt := now }) ∧
        (bd.developer ∉ a.bids.map Bid.developer →
          a'.bids = a.bids ++
            [{ id := fid, developer := bd.developer, amount := bd.amount,
               proposal := bd.proposal, timeline := bd.timeline,
               status := BidStatus.pending, submittedAt := now }])) := by
  constructor
  · intro a calls h
    exact runBids_nodup_developers calls a h
  · intro a bd now fid a' h
    have hmemany : a.bids.any (fun b => b.developer == bd.developer) = true ↔
        bd.developer ∈ a.bids.map Bid.developer := by
      rw [List.any_eq_true]
      constructor
      · rintro ⟨b, hb, hbe⟩
        exact List.mem_map.mpr ⟨b, hb, by simpa using hbe⟩
      · intro hm
        obtain ⟨b, hb, hbe⟩ := List.mem_map.mp hm
        exact ⟨b, hb, by simp [hbe]⟩
    unfold Auction.addBid at h
    split at h
    · cases h
    · split at h
      · rename_i hany
        cases h
        constructor
        · intro _
          obtain ⟨i, b, hget, hdev, heq⟩ :=
            replaceBidOf_eq_set bd now a.bids hany
          refine ⟨?_, i, b, hget, hdev, heq⟩
          rw [heq, List.length_set]
        · intro hnotmem
          exact absurd (hmemany.mp hany) hnotmem
      · rename_i hany
        cases h
        constructor
        · intro hmem
          exact absurd hmem (by rw [← hmemany]; simpa using hany)
        · intro _
          rfl

/-- Witness for C2: developer 2 bids twice on a fresh auction; the developer
column of the resulting bid list is duplicate-free. -/
theorem addBid_developer_unique_witness :
    ((runBids
        { buyer := 1, status := .open_, bids := [], acceptedBid := none,
          expiresAt := 1000, isActive := true }
        [(⟨2, 300, "first proposal text", 14⟩, 10, 100),
         (⟨2, 250, "second proposal text", 10⟩, 20, 101)]).bids.map
        Bid.developer).Nodup :=
  addBid_developer_unique.1 _ _ (by simp)

/-- Witness for C1: accepting the pending bid with `_id` 10 on a two-bid
open auction. -/
theorem acceptBid_exactly_one_accepted_witness :
    ∃ a', Auction.acceptBid
        { buyer := 1, status := .open_,
          bids := [{ id := 10, developer := 2, amount := 300,
                     proposal := "p", timeline := 14, status := .pending,
                     submittedAt := 5 },
                   { id := 11, developer := 3, amount := 200,
                     proposal := "q", timeline := 7, status := .pending,
                     submittedAt := 6 }],
          acceptedBid := none, expiresAt := 1000, isActive := true } 10 =
        .ok a' ∧
      a'.bids.countP (fun c => c.status == BidStatus.accepted) = 1 ∧
      (∀ c ∈ a'.bids, c.id ≠ 10 → c.status = .rejected) ∧
      (∀ c ∈ a'.bids, c.id = 10 → c.status = .accepted) ∧
      a'.acceptedBid = some 2 ∧
      a'.status = .inProgress :=
  acceptBid_exactly_one_accepted _
    { id := 10, developer := 2, amount := 300, proposal := "p",
      timeline := 14, status := .pending, submittedAt := 5 }
    10 rfl (by decide) rfl rfl (by decide)

/-- C6 counterexample: at the exact expiry instant (`expiresAt = now`) the
claim demands an `InvalidState` failure, but `isExpired` is the strict
comparison `expiresAt < now`, so the bid goes through: the route returns
the updated auction, not an error. -/
theorem submitBid_at_expiry_succeeds :
    submitBidRoute
      (some { buyer := 1, status := .open_, bids := [], acceptedBid := none,
              expiresAt := 100, isActive := true })
      2 { developer := 2, amount := 300, proposal := "proposal text",
          timeline := 14 } 100 7 =
    .ok { buyer := 1, status := .open_,
          bids := [{ id := 7, developer := 2, amount := 300,
                     proposal := "proposal text", timeline := 14,
                     status := .pending, submittedAt := 100 }],
          acceptedBid := none, expiresAt := 100, isActive := true } := by
  rfl

/-- C6 amended: once `expiresAt` has strictly elapsed (`expiresAt < now`),
`submitBid` fails with `InvalidState` even when the status is still open
(for a caller the earlier guards let through: an active auction and a
non-buyer bidder); and `submitBid` succeeds only when
`status = open` and `now ≤ expiresAt`. -/
theorem submitBid_expiry_guard
    (a : Auction) (requesterId : Nat) (bd : BidData) (now fid : Nat) :
    (a.isActive = true → a.buyer ≠ requesterId → a.expiresAt < now →
      submitBidRoute (some a) requesterId bd now fid =
        .error .invalidState)
    ∧ (∀ a', submitBidRoute (some a) requesterId bd now fid = .ok a' →
        a.status = .open_ ∧ now ≤ a.expiresAt) := by
  constructor
  · intro hact hbuyer hexp
    by_cases hst : a.status = AuctionStatus.open_
    · simp [submitBidRoute, hact, hst, hbuyer, Auction.addBid,
        Auction.isOpen, Auction.isExpired, hexp]
    · simp [submitBidRoute, hact, hst]
  · intro a' h
    simp only [submitBidRoute] at h
    by_cases hact : a.isActive = true
    · rw [hact] at h
      simp only [Bool.not_true, Bool.false_eq_true, if_false] at h
      by_cases hst : a.status = AuctionStatus.open_
      · rw [if_neg (by simp [hst])] at h
        by_cases hbuy : a.buyer = requesterId
        · rw [if_pos hbuy] at h
          cases h
        · rw [if_neg hbuy] at h
          unfold Auction.addBid at h
          by_cases hopen : a.isOpen now = true
          · refine ⟨hst, ?_⟩
            unfold Auction.isOpen Auction.isExpired at hopen
            have : ¬ a.expiresAt < now := by
              intro hlt
              simp [hlt] at hopen
            exact Nat.le_of_not_lt this
          · rw [Bool.not_eq_true] at hopen
            rw [hopen] at h
            simp only [Bool.not_false, if_true] at h
            cases h
      · rw [if_pos hst] at h
        cases h
    · rw [Bool.not_eq_true] at hact
      rw [hact] at h
      simp only [Bool.not_false, if_true] at h
      cases h

/-- Witness for the amended C6: an open, active auction whose `expiresAt`
(50) lies strictly before the call time (60) rejects a bid from
developer 2 with `InvalidState`. -/
theorem submitBid_expiry_guard_witness :
    submitBidRoute
      (some { buyer := 1, status := .open_, bids := [], acceptedBid := none,
              expiresAt := 50, isActive := true })
      2 { developer := 2, amount := 300, proposal := "proposal text",
          timeline := 14 } 60 7 =
    .error .invalidState :=
  (submitBid_expiry_guard
    { buyer := 1, status := .open_, bids := [], acceptedBid := none,
      expiresAt := 50, isActive := true }
    2 { developer := 2, amount := 300, proposal := "proposal text",
        timeline := 14 } 60 7).1 rfl (by decide) (by decide)

/-- C8: when the buyer calls bid acceptance on an auction that is not open
(in-progress, completed or cancelled), the route fails with `InvalidState`
before reaching the bids, whatever their states, and no updated auction is
produced. -/
theorem acceptBid_route_invalid_state
    (a : Auction) (requesterId bidId : Nat)
    (hbuyer : a.buyer = requesterId)
    (hstatus : a.status ≠ .open_) :
    acceptBidRoute (some a) requesterId bidId = .error .invalidState ∧
    ∀ a', acceptBidRoute (some a) requesterId bidId ≠ .ok a' := by
  have h : acceptBidRoute (some a) requesterId bidId =
      .error .invalidState := by
    simp only [acceptBidRoute]
    rw [if_neg (by simp [hbuyer]), if_pos hstatus]
  refine ⟨h, fun a' hcontra => ?_⟩
  rw [h] at hcontra
  cases hcontra

/-- Witness for C8: a completed auction with an accepted and a pending bid;
the buyer's acceptance call fails with `InvalidState`. -/
theorem acceptBid_route_invalid_state_witness :
    acceptBidRoute
      (some { buyer := 1, status := .completed,
              bids := [{ id := 10, developer := 2, amount := 300,
                         proposal := "p", timeline := 14,
                         status := .accepted, submittedAt := 5 },
                       { id := 11, developer := 3, amount := 200,
                         proposal := "q", timeline := 7,
                         status := .pending, submittedAt := 6 }],
              acceptedBid := some 2, expiresAt := 1000, isActive := true })
      1 11 = .error .invalidState :=
  (acceptBid_route_invalid_state _ 1 11 rfl (by decide)).1

/-- C9 (code bug): mongoose validates `required` paths before user
`pre('save')` hooks run, so saving an auction document without `expiresAt`
is rejected by validation — the defaulting hook never fires and nothing is
persisted, contradicting the claim (and the hook's own comment, which
promises to default `expiresAt` to now + 30 days; the second conjunct shows
the hook in isolation would indeed have done so). -/
theorem auctionSave_missing_expiresAt_rejected :
    auctionSave
      { buyer := 1, status := .open_, bids := [], acceptedBid := none,
        expiresAt := none, isActive := true } 1000 =
      .error .validationFailed ∧
    preSaveHook
      { buyer := 1, status := .open_, bids := [], acceptedBid := none,
        expiresAt := none, isActive := true } 1000 =
      { buyer := 1, status := .open_, bids := [], acceptedBid := none,
        expiresAt := some (1000 + 30 * 24 * 60 * 60 * 1000),
        isActive := true } := by
  exact ⟨rfl, rfl⟩

/-! ## Helper lemmas about the payment operations -/

/-- Replacing, keyed by `_id`, the payment that `find?` located (in a
payment list with pairwise-distinct `_id`s) makes `find?` locate the
replacement, provided the replacement still satisfies the search key. -/
theorem find_replace_payment {l : List Payment} {key : Payment → Bool}
    {p r : Payment}
    (hfind : l.find? key = some p)
    (hnd : (l.map Payment.id).Nodup)
    (hkey : key r = true) (hrid : r.id = p.id) :
    (l.map (fun q => if q.id = p.id then r else q)).find? key = some r := by
  induction l with
  | nil => cases hfind
  | cons c cs ih =>
      rw [List.map_cons, List.nodup_cons] at hnd
      by_cases hc : key c = true
      · rw [List.find?_cons_of_pos _ hc] at hfind
        injection hfind with hfind
        subst hfind
        rw [List.map_cons, if_pos rfl]
        exact List.find?_cons_of_pos _ hkey
      · rw [List.find?_cons_of_neg _ hc] at hfind
        have hpm : p ∈ cs := List.mem_of_find?_eq_some hfind
        have hcid : ¬c.id = p.id := by
          intro hcp
          exact hnd.1 (hcp ▸ List.mem_map_of_mem Payment.id hpm)
        rw [List.map_cons, if_neg hcid, List.find?_cons_of_neg _ hc]
        exact ih hfind hnd.2

/-- A string a JS truthiness check accepts is non-empty. -/
theorem isEmpty_false_of_ne {s : String} (h : s ≠ "") :
    s.isEmpty = false := by
  rw [Bool.eq_false_iff]
  intro hc
  exact h ((String.isEmpty_iff _).mp hc)

/-- C4: when the supplied signature differs from the HMAC-SHA256 digest of
`orderId + "|" + paymentId` under the shared secret, `verify` fails with
`SignatureInvalid` and produces no new store state — in particular the
referenced payment record keeps its `pending` status. -/
theorem verify_signature_invalid
    (hmac : String → String) (st : Store) (callerId : Nat)
    (orderId paymentId signature : String) (now : Nat)
    (hne : orderId ≠ "" ∧ paymentId ≠ "" ∧ signature ≠ "")
    (hmis : hmac (orderId ++ "|" ++ paymentId) ≠ signature) :
    verify hmac st callerId orderId paymentId signature now =
      .error .signatureInvalid ∧
    ∀ st', verify hmac st callerId orderId paymentId signature now ≠
      .ok st' := by
  have h : verify hmac st callerId orderId paymentId signature now =
      .error .signatureInvalid := by
    simp [verify, isEmpty_false_of_ne hne.1, isEmpty_false_of_ne hne.2.1,
      isEmpty_false_of_ne hne.2.2, hmis]
  refine ⟨h, fun st' hcontra => ?_⟩
  rw [h] at hcontra
  cases hcontra

/-- C10: the verify route recomputes and compares the signature before the
payment lookup: a mismatched signature yields `SignatureInvalid` even when
no payment record matches the order id, and a `NotFound` reply is only
reachable with a correctly computed signature. -/
theorem verify_signature_before_lookup
    (hmac : String → String) (st : Store) (callerId : Nat)
    (orderId paymentId signature : String) (now : Nat) :
    (orderId ≠ "" → paymentId ≠ "" → signature ≠ "" →
      hmac (orderId ++ "|" ++ paymentId) ≠ signature →
      findByOrderId st.payments orderId = none →
      verify hmac st callerId orderId paymentId signature now =
        .error .signatureInvalid)
    ∧ (verify hmac st callerId orderId paymentId signature now =
        .error .notFound →
      hmac (orderId ++ "|" ++ paymentId) = signature ∧
      findByOrderId st.payments orderId = none) := by
  constructor
  · intro h1 h2 h3 hmis _
    simp [verify, isEmpty_false_of_ne h1, isEmpty_false_of_ne h2,
      isEmpty_false_of_ne h3, hmis]
  · intro h
    by_cases he : orderId.isEmpty || paymentId.isEmpty || signature.isEmpty
    · rw [verify, if_pos he] at h
      cases h
    · rw [verify, if_neg he] at h
      by_cases hsig : hmac (orderId ++ "|" ++ paymentId) = signature
      · refine ⟨hsig, ?_⟩
        rw [if_neg (by simpa using hsig)] at h
        cases hf : findByOrderId st.payments orderId with
        | none => rfl
        | some p =>
            rw [hf] at h
            by_cases hu : p.user = callerId
            · by_cases hs : p.status = PayStatus.pending
              · simp [hu, hs] at h
              · simp [hu, hs] at h
            · simp [hu] at h
      · rw [if_pos hsig] at h
        cases h

/-- With a valid signature, a verify call that locates a payment owned by
the caller whose status is no longer pending replies `AlreadyProcessed`. -/
theorem verify_alreadyProcessed_of_completed
    (hmac : String → String) (st : Store) (callerId : Nat)
    (orderId paymentId signature : String) (now : Nat) (q : Payment)
    (h1 : orderId.isEmpty = false) (h2 : paymentId.isEmpty = false)
    (h3 : signature.isEmpty = false)
    (hsig : hmac (orderId ++ "|" ++ paymentId) = signature)
    (hfind : findByOrderId st.payments orderId = some q)
    (huser : q.user = callerId) (hstat : q.status ≠ .pending) :
    verify hmac st callerId orderId paymentId signature now =
      .error .alreadyProcessed := by
  simp [verify, h1, h2, h3, hsig, hfind, huser, hstat]

/-- C3: with a correctly computed signature, a verify call against a
payment whose status is no longer `pending` (for instance one completed by
a prior verify) fails with `AlreadyProcessed` and produces no new store
state, leaving the user's purchases unchanged; a single successful verify
completes the payment and appends the purchased item to the caller's
purchases exactly once, skipping the append when the item is already there
— and retrying the same payload afterwards fails with `AlreadyProcessed`. -/
theorem verify_completed_once
    (hmac : String → String) (st : Store) (callerId : Nat)
    (orderId paymentId signature : String) (now : Nat) (p : Payment)
    (hne : orderId ≠ "" ∧ paymentId ≠ "" ∧ signature ≠ "")
    (hsig : hmac (orderId ++ "|" ++ paymentId) = signature)
    (hfind : findByOrderId st.payments orderId = some p)
    (howner : p.user = callerId)
    (hnd : (st.payments.map Payment.id).Nodup) :
    (p.status ≠ .pending →
      verify hmac st callerId orderId paymentId signature now =
        .error .alreadyProcessed)
    ∧ (∀ st', verify hmac st callerId orderId paymentId signature now =
          .ok st' →
        p.status = .pending
        ∧ findByOrderId st'.payments orderId =
            some (p.markCompleted paymentId signature now)
        ∧ (p.markCompleted paymentId signature now).status = .completed
        ∧ st'.users = st.users.map (fun u =>
            if u.id = callerId then
              (if p.app ∈ u.purchases then u
               else { u with purchases := u.purchases ++ [p.app] })
            else u)
        ∧ (∀ now2,
            verify hmac st' callerId orderId paymentId signature now2 =
              .error .alreadyProcessed)) := by
  have h1 := isEmpty_false_of_ne hne.1
  have h2 := isEmpty_false_of_ne hne.2.1
  have h3 := isEmpty_false_of_ne hne.2.2
  constructor
  · intro hstat
    exact verify_alreadyProcessed_of_completed hmac st callerId orderId
      paymentId signature now p h1 h2 h3 hsig hfind howner hstat
  · intro st' hok
    by_cases hstat : p.status = PayStatus.pending
    · have hrun : verify hmac st callerId orderId paymentId signature now =
          .ok { payments := st.payments.map (fun q =>
                  if q.id = p.id
                  then p.markCompleted paymentId signature now else q),
                users := st.users.map (fun u =>
                  if u.id = callerId then
                    (if p.app ∈ u.purchases then u
                     else { u with purchases := u.purchases ++ [p.app] })
                  else u),
                apps := st.apps.map (fun ap =>
                  if ap.id = p.app
                  then { ap with downloads := ap.downloads + 1 } else ap) } := by
        simp [verify, h1, h2, h3, hsig, hfind, howner, hstat]
      rw [hrun] at hok
      injection hok with hok
      subst hok
      have hkey : ((p.markCompleted paymentId signature now).razorpayOrderId
          == orderId) = true := by
        have := List.find?_some hfind
        simpa [Payment.markCompleted] using this
      have hfind' : findByOrderId (st.payments.map (fun q =>
          if q.id = p.id
          then p.markCompleted paymentId signature now else q)) orderId =
          some (p.markCompleted paymentId signature now) :=
        find_replace_payment hfind hnd hkey rfl
      refine ⟨hstat, hfind', rfl, rfl, ?_⟩
      intro now2
      exact verify_alreadyProcessed_of_completed hmac _ callerId orderId
        paymentId signature now2 (p.markCompleted paymentId signature now)
        h1 h2 h3 hsig hfind' howner (by simp [Payment.markCompleted])
    · have herr := verify_alreadyProcessed_of_completed hmac st callerId
        orderId paymentId signature now p h1 h2 h3 hsig hfind howner hstat
      rw [herr] at hok
      cases hok

/-- An admin refund call that locates a payment whose status is not
`completed` replies `InvalidState`. -/
theorem refund_invalidState
    (st : Store) (paymentId amount : Nat) (reason : String)
    (remoteOk : Bool) (now : Nat) (q : Payment)
    (hamt : (amount == 0) = false) (hreason : reason.isEmpty = false)
    (hfind : st.payments.find? (fun x => x.id == paymentId) = some q)
    (hstat : q.status ≠ .completed) :
    refund st true paymentId amount reason remoteOk now =
      .error .invalidState := by
  simp [refund, hamt, hreason, hfind, hstat]

/-- C5: refund succeeds only on a `completed` payment, so
completed→refunded happens at most once (a repeat attempt on the refunded
record fails with `InvalidState`); a remote-gateway failure leaves the
local record untouched and yields no new store state; only on remote
success does the record transition to `refunded` with
refundAmount/refundReason/refundedAt recorded. -/
theorem refund_completed_once
    (st : Store) (paymentId amount : Nat) (reason : String)
    (remoteOk : Bool) (now : Nat) (p : Payment)
    (hamt : amount ≠ 0) (hreason : reason ≠ "")
    (hfind : st.payments.find? (fun q => q.id == paymentId) = some p)
    (hnd : (st.payments.map Payment.id).Nodup) :
    (p.status ≠ .completed →
      refund st true paymentId amount reason remoteOk now =
        .error .invalidState)
    ∧ (remoteOk = false →
        ∀ st', refund st true paymentId amount reason remoteOk now ≠
          .ok st')
    ∧ (∀ st', refund st true paymentId amount reason remoteOk now =
          .ok st' →
        p.status = .completed ∧ remoteOk = true
        ∧ st'.payments.find? (fun q => q.id == paymentId) =
            some (p.processRefund amount reason now)
        ∧ (p.processRefund amount reason now).status = .refunded
        ∧ (p.processRefund amount reason now).refundAmount = amount
        ∧ (p.processRefund amount reason now).refundReason = some reason
        ∧ (p.processRefund amount reason now).refundedAt = some now
        ∧ st'.users = st.users
        ∧ (∀ amount2 reason2 remoteOk2 now2, amount2 ≠ 0 → reason2 ≠ "" →
            refund st' true paymentId amount2 reason2 remoteOk2 now2 =
              .error .invalidState)) := by
  have hamt' : (amount == 0) = false := by simp [hamt]
  have hreason' := isEmpty_false_of_ne hreason
  refine ⟨?_, ?_, ?_⟩
  · intro hstat
    exact refund_invalidState st paymentId amount reason remoteOk now p
      hamt' hreason' hfind hstat
  · intro hro st' hcontra
    subst hro
    by_cases hstat : p.status = PayStatus.completed
    · simp [refund, hamt', hreason', hfind, hstat] at hcontra
    · rw [refund_invalidState st paymentId amount reason false now p
        hamt' hreason' hfind hstat] at hcontra
      cases hcontra
  · intro st' hok
    by_cases hstat : p.status = PayStatus.completed
    · by_cases hro : remoteOk = true
      · subst hro
        have hrun : refund st true paymentId amount reason true now =
            .ok { st with payments := st.payments.map (fun q =>
                    if q.id = p.id then p.processRefund amount reason now
                    else q) } := by
          simp [refund, hamt', hreason', hfind, hstat]
        rw [hrun] at hok
        injection hok with hok
        subst hok
        have hkey : ((p.processRefund amount reason now).id == paymentId) =
            true := by
          have := List.find?_some hfind
          simpa [Payment.processRefund] using this
        have hfind' := find_replace_payment hfind hnd hkey rfl
        refine ⟨hstat, rfl, hfind', rfl, rfl, rfl, rfl, rfl, ?_⟩
        intro amount2 reason2 remoteOk2 now2 hamt2 hreason2
        exact refund_invalidState _ paymentId amount2 reason2 remoteOk2
          now2 _ (by simp [hamt2]) (isEmpty_false_of_ne hreason2) hfind'
          (by simp [Payment.processRefund])
      · have hro' : remoteOk = false := by
          cases remoteOk
          · rfl
          · exact absurd rfl hro
        subst hro'
        simp [refund, hamt', hreason', hfind, hstat] at hok
    · rw [refund_invalidState st paymentId amount reason remoteOk now p
        hamt' hreason' hfind hstat] at hok
      cases hok

/-- C7 amended: `createOrder` fails with `AlreadyPurchased` — creating no
gateway order and no payment record — whenever the app exists and a
completed payment for (user, app) already exists.  (The global
"at most one completed payment per (user, item)" part of the claim does
not hold: see the counterexample.) -/
theorem createOrder_already_purchased
    (st : Store) (userId appId amount : Nat) (orderId : String)
    (newPaymentId : Nat)
    (happ : (st.apps.find? (fun a => a.id == appId)).isSome = true)
    (hcomp : (st.payments.find? (fun p =>
        p.user == userId && p.app == appId &&
        p.status == PayStatus.completed)).isSome = true) :
    createOrder st userId appId amount orderId newPaymentId =
      .error .alreadyPurchased ∧
    ∀ st', createOrder st userId appId amount orderId newPaymentId ≠
      .ok st' := by
  obtain ⟨a, ha⟩ := Option.isSome_iff_exists.mp happ
  have h : createOrder st userId appId amount orderId newPaymentId =
      .error .alreadyPurchased := by
    simp [createOrder, ha, hcomp]
  refine ⟨h, fun st' hc => ?_⟩
  rw [h] at hc
  cases hc

/-! ## Concrete stores for counterexamples and witnesses -/

/-- A stand-in for the HMAC-SHA256 hex digest under the shared secret:
any fixed injective-on-our-inputs function works, since the routes only
compare digests for equality. -/
def wDigest (s : String) : String := "sig:" ++ s

/-- A payment for app 5 by user 1 that has already completed. -/
def wPaymentCompleted : Payment :=
  { id := 7, user := 1, app := 5, amount := 199,
    razorpayOrderId := "order1", razorpayPaymentId := some "pay1",
    razorpaySignature := some (wDigest "order1|pay1"),
    status := .completed, refundAmount := 0, refundReason := none,
    refundedAt := none, completedAt := some 40 }

/-- Store in which user 1 has completed the purchase of app 5. -/
def wStore : Store :=
  { payments := [wPaymentCompleted],
    users := [{ id := 1, purchases := [5] }],
    apps := [{ id := 5, downloads := 1 }] }

/-- The same payment after an admin refund. -/
def wPaymentRefunded : Payment :=
  { wPaymentCompleted with
    status := .refunded,
    refundAmount := 199,
    refundReason := some "customer request",
    refundedAt := some 60 }

/-- Store in which the payment has already been refunded. -/
def wStoreRefunded : Store :=
  { wStore with payments := [wPaymentRefunded] }

/-- Store with no payment records at all. -/
def wStoreEmpty : Store :=
  { payments := [], users := [{ id := 1, purchases := [] }],
    apps := [{ id := 5, downloads := 0 }] }

/-- Two orders for the same (user 1, app 5) pair created while neither is
completed, then both verified. -/
def cexRun : Except PaymentError Store :=
  (createOrder wStoreEmpty 1 5 199 "o1" 10).bind (fun s1 =>
    (createOrder s1 1 5 199 "o2" 11).bind (fun s2 =>
      (verify wDigest s2 1 "o1" "p1" (wDigest "o1|p1") 50).bind (fun s3 =>
        verify wDigest s3 1 "o2" "p2" (wDigest "o2|p2") 60)))

/-- C7 counterexample: the modeled operations reach a state holding TWO
completed payments for the same (user, item) pair — `createOrder` only
gates on an existing *completed* payment, so two orders placed before
either verify both pass the gate and both verifies succeed.  "At most one
completed payment exists per (user, item) pair" is therefore not an
invariant of the code. -/
theorem completed_payment_pair_not_unique :
    (match cexRun with
     | .ok st => st.payments.countP (fun p =>
         p.user == 1 && p.app == 5 && p.status == PayStatus.completed)
     | .error _ => 0) = 2 := by
  decide

/-- Witness for C3: retrying the original (valid) verify payload against
the already-completed payment fails with `AlreadyProcessed`. -/
theorem verify_completed_once_witness :
    verify wDigest wStore 1 "order1" "pay1" (wDigest "order1|pay1") 99 =
      .error .alreadyProcessed :=
  (verify_completed_once wDigest wStore 1 "order1" "pay1"
    (wDigest "order1|pay1") 99 wPaymentCompleted
    ⟨by decide, by decide, by decide⟩ rfl rfl rfl (by decide)).1 (by decide)

/-- Witness for C4: a forged signature on an existing order is rejected
with `SignatureInvalid`. -/
theorem verify_signature_invalid_witness :
    verify wDigest wStore 1 "order1" "pay1" "forged" 99 =
      .error .signatureInvalid :=
  (verify_signature_invalid wDigest wStore 1 "order1" "pay1" "forged" 99
    ⟨by decide, by decide, by decide⟩ (by decide)).1

/-- Witness for C10: with no payment record at all, a mismatched signature
still yields `SignatureInvalid`, not `NotFound`. -/
theorem verify_signature_before_lookup_witness :
    verify wDigest wStoreEmpty 1 "orderX" "payX" "forged" 99 =
      .error .signatureInvalid :=
  (verify_signature_before_lookup wDigest wStoreEmpty 1 "orderX" "payX"
    "forged" 99).1 (by decide) (by decide) (by decide) (by decide) rfl

/-- Witness for C5: a second refund attempt against the already-refunded
payment fails with `InvalidState`. -/
theorem refund_completed_once_witness :
    refund wStoreRefunded true 7 100 "again" true 99 =
      .error .invalidState :=
  (refund_completed_once wStoreRefunded 7 100 "again" true 99
    wPaymentRefunded (by decide) (by decide) rfl (by decide)).1 (by decide)

/-- Witness for the amended C7: user 1 already holds a completed payment
for app 5, so a fresh order for the same pair is refused. -/
theorem createOrder_already_purchased_witness :
    createOrder wStore 1 5 199 "order2" 8 = .error .alreadyPurchased :=
  (createOrder_already_purchased wStore 1 5 199 "order2" 8 (by decide)
    (by decide)).1

end AppBazaar
